import Mathlib

/-!
Shallow embedding of the chain synchronization engine of the blockchain
explorer: the data fetched from the upstream node (chain client adapter),
the durable store (Drizzle/Postgres tables modelled as in-memory lists of
rows), the storage operations of server/storage.ts, and the ingestion
pipeline of server/blockchain-sync.ts.  JavaScript BigInt/number values are
modelled as Nat (all values occurring here are non-negative), nullable
columns as Option, and decimal-string columns as String via toString.
-/

namespace BlockchainSync

/-- An event log entry of a transaction receipt, as delivered by the
upstream node (only the fields the sync engine reads). -/
structure ChainLog where
  address : String
  topics : List String
deriving Repr, DecidableEq

/-- A transaction body as returned by provider.getTransaction. -/
structure ChainTx where
  hash : String
  fromAddr : String
  toAddr : Option String
  value : Nat
  gasPrice : Option Nat
  nonce : Nat
  index : Nat
  data : String
deriving Repr, DecidableEq

/-- A transaction receipt as returned by provider.getTransactionReceipt. -/
structure ChainReceipt where
  gasUsed : Nat
  status : Option Nat
  contractAddress : Option String
  logs : List ChainLog
deriving Repr, DecidableEq

/-- A block as returned by provider.getBlock (with transaction hashes).
blockLength models the client object's length field, read as
block.length in the source with a 0 fallback. -/
structure ChainBlock where
  number : Nat
  hash : Option String
  miner : Option String
  timestamp : Nat
  gasUsed : Nat
  gasLimit : Nat
  baseFeePerGas : Option Nat
  blockLength : Option Nat
  transactions : List String
deriving Repr, DecidableEq

/-- Results of the four ERC-20 view calls made by indexToken; none models
a reverting call (handled by a catch fallback in the source). -/
structure TokenViews where
  name : Option String
  symbol : Option String
  decimals : Option Nat
  totalSupply : Option Nat
deriving Repr, DecidableEq

/-- The chain client adapter (ethers JsonRpcProvider).  getBlockNumber and
getBlock may fail with a thrown error, modelled as Except.error; a block
that is not found is Except.ok none, matching the null return in the
source.  getTransaction and getTransactionReceipt return none when the
data is unavailable (the thrown-error case is caught at the same point in
processTransaction and has the identical effect of skipping). -/
structure Provider where
  getBlockNumber : Except Unit Nat
  getBlock : Nat → Except Unit (Option ChainBlock)
  getTransaction : String → Option ChainTx
  getTransactionReceipt : String → Option ChainReceipt
  getBalance : String → Nat
  getCode : String → String
  tokenViews : String → TokenViews

/-- A row of the blocks table (shared/schema.ts): base_fee_per_gas and
burnt_fees are nullable varchar columns. -/
structure BlockRow where
  blockNumber : Nat
  hash : String
  miner : String
  timestamp : Nat
  gasUsed : String
  gasLimit : String
  size : Nat
  baseFeePerGas : Option String
  burntFees : Option String
  transactionCount : Nat
deriving Repr, DecidableEq

/-- A row of the transactions table (shared/schema.ts). -/
structure TxRow where
  txHash : String
  blockNumber : Nat
  fromAddress : String
  toAddress : Option String
  value : String
  gasPrice : String
  gasUsed : String
  status : Nat
  nonce : Nat
  transactionIndex : Nat
  input : String
  timestamp : Nat
  method : Option String
  contractCreated : Option String
  logs : List ChainLog
deriving Repr, DecidableEq

/-- A row of the addresses table (shared/schema.ts). -/
structure AddressRow where
  address : String
  balance : String
  type : String
  isContract : Bool
  firstSeen : Nat
  lastSeen : Nat
  transactionCount : Nat
deriving Repr, DecidableEq

/-- A row of the contracts table (shared/schema.ts); the jsonb abi column
is not read by the sync engine and is omitted. -/
structure ContractRow where
  address : String
  creator : String
  creationTxHash : Option String
  sourceCode : Option String
  compilerVersion : Option String
  optimization : Option Bool
  optimizationRuns : Option Nat
  constructorArgs : Option String
  verified : Bool
  verifiedAt : Option Nat
  contractName : Option String
deriving Repr, DecidableEq

/-- A row of the tokens table (shared/schema.ts), restricted to the fields
the sync engine writes. -/
structure TokenRow where
  address : String
  name : String
  symbol : String
  decimals : Nat
  totalSupply : String
  logoUrl : Option String
  logoStatus : String
  submittedBy : Option String
  submittedAt : Option Nat
  reviewedAt : Option Nat
  reviewedBy : Option String
deriving Repr, DecidableEq

/-- The singleton sync_state row (id = 1); last_synced_at is a wall-clock
write of new Date() and is not modelled. -/
structure SyncStateRow where
  lastSyncedBlock : Nat
  isConnected : Bool
deriving Repr, DecidableEq

/-- The durable store: one list of rows per table, plus the singleton
sync cursor. -/
structure DB where
  blocks : List BlockRow
  transactions : List TxRow
  addresses : List AddressRow
  contracts : List ContractRow
  tokens : List TokenRow
  syncState : Option SyncStateRow
deriving Repr, DecidableEq

/-- The empty store. -/
def DB.empty : DB :=
  { blocks := [], transactions := [], addresses := [], contracts := [],
    tokens := [], syncState := none }

/-! ### Storage operations (server/storage.ts, DatabaseStorage) -/

/-- storage.getBlock: select the row whose block_number matches. -/
def getBlock (db : DB) (blockNumber : Nat) : Option BlockRow :=
  db.blocks.find? (fun r => r.blockNumber == blockNumber)

/-- storage.getTransaction: select the row whose tx_hash matches. -/
def getTransaction (db : DB) (txHash : String) : Option TxRow :=
  db.transactions.find? (fun r => r.txHash == txHash)

/-- storage.getAddress: select the row whose address matches. -/
def getAddress (db : DB) (address : String) : Option AddressRow :=
  db.addresses.find? (fun r => r.address == address)

/-- storage.getToken: select the row whose address matches. -/
def getToken (db : DB) (address : String) : Option TokenRow :=
  db.tokens.find? (fun r => r.address == address)

/-- storage.getSyncState: the singleton cursor row, if present. -/
def getSyncState (db : DB) : Option SyncStateRow :=
  db.syncState

/-- storage.updateSyncState: upsert keyed on the singleton id, overwriting
last_synced_block and is_connected with the given values. -/
def updateSyncState (db : DB) (blockNumber : Nat) (isConnected : Bool) : DB :=
  { db with syncState := some { lastSyncedBlock := blockNumber, isConnected } }

/-- storage.insertBlock: insert with onConflictDoNothing().returning().
The blocks table has a primary key on block_number and a unique
constraint on hash; a conflicting insert leaves the store unchanged and
the returned row list empty (so the destructured result is undefined,
modelled as none). -/
def insertBlock (db : DB) (row : BlockRow) : DB × Option BlockRow :=
  if db.blocks.any (fun r => r.blockNumber == row.blockNumber || r.hash == row.hash) then
    (db, none)
  else
    ({ db with blocks := db.blocks ++ [row] }, some row)

/-- storage.insertTransaction: insert with onConflictDoNothing().returning();
the only uniqueness constraint is the tx_hash primary key. -/
def insertTransaction (db : DB) (row : TxRow) : DB × Option TxRow :=
  if db.transactions.any (fun r => r.txHash == row.txHash) then
    (db, none)
  else
    ({ db with transactions := db.transactions ++ [row] }, some row)

/-- storage.insertContract: insert with onConflictDoNothing().returning();
the address column is the primary key. -/
def insertContract (db : DB) (row : ContractRow) : DB × Option ContractRow :=
  if db.contracts.any (fun r => r.address == row.address) then
    (db, none)
  else
    ({ db with contracts := db.contracts ++ [row] }, some row)

/-- storage.upsertAddress: insert, and on address conflict update balance
and last_seen from the given values while incrementing the stored
transaction_count in SQL (transaction_count = transaction_count + 1); the
given row's own transactionCount is ignored on the conflict path. -/
def upsertAddress (db : DB) (row : AddressRow) : DB × AddressRow :=
  match db.addresses.find? (fun r => r.address == row.address) with
  | none => ({ db with addresses := db.addresses ++ [row] }, row)
  | some r =>
    let r' : AddressRow :=
      { r with balance := row.balance, lastSeen := row.lastSeen,
               transactionCount := r.transactionCount + 1 }
    ({ db with addresses :=
         db.addresses.map (fun a => if a.address == row.address then r' else a) }, r')

/-- storage.upsertToken: insert, and on address conflict overwrite every
sync-written field from the given values. -/
def upsertToken (db : DB) (row : TokenRow) : DB × TokenRow :=
  if db.tokens.any (fun r => r.address == row.address) then
    ({ db with tokens := db.tokens.map (fun t => if t.address == row.address then row else t) }, row)
  else
    ({ db with tokens := db.tokens ++ [row] }, row)

/-! ### WebSocket fan-out (server/routes.ts) -/

/-- A connected WebSocket client: its readyState-OPEN flag and the
messages sent to it so far. -/
structure Client where
  isOpen : Bool
  inbox : List String
deriving Repr, DecidableEq

/-- broadcastToClients: send the message to every client whose readyState
is OPEN. -/
def broadcastToClients (clients : List Client) (message : String) : List Client :=
  clients.map (fun c => if c.isOpen then { c with inbox := c.inbox ++ [message] } else c)

/-- Deliver a list of broadcast messages in order. -/
def broadcastAll (clients : List Client) (messages : List String) : List Client :=
  messages.foldl broadcastToClients clients

/-! ### Sync engine (server/blockchain-sync.ts) -/

/-- The canonical ERC-20 Transfer event topic hash tested against
log.topics[0] in processTransaction. -/
def transferTopic : String :=
  "0xddf252ad1be2c89b69c2b068fc378daa952ba7f163c4a11628f55a4df523b3ef"

/-- BlockchainSync.indexToken: read the four ERC-20 view functions with
per-call fallbacks (Unknown / ??? / 18 / 0) and create or overwrite the
Token row with logo status no_logo and no submitter metadata. -/
def indexToken (p : Provider) (db : DB) (tokenAddress : String) : DB :=
  let v := p.tokenViews tokenAddress
  (upsertToken db
    { address := tokenAddress,
      name := v.name.getD "Unknown",
      symbol := v.symbol.getD "???",
      decimals := v.decimals.getD 18,
      totalSupply := toString (v.totalSupply.getD 0),
      logoUrl := none,
      logoStatus := "no_logo",
      submittedBy := none, submittedAt := none,
      reviewedAt := none, reviewedBy := none }).1

/-- BlockchainSync.updateAddress: refresh the live balance; insert a fresh
Address row with count 1 (kind derived from getCode) when the address is
unknown, else upsert carrying the previously read count + 1 (which the
store-side conflict action of upsertAddress replaces with its own atomic
increment). -/
def updateAddress (p : Provider) (db : DB) (address : String) (timestamp : Nat) : DB :=
  match getAddress db address with
  | none =>
    let isContract := p.getCode address ≠ "0x"
    (upsertAddress db
      { address,
        balance := toString (p.getBalance address),
        type := if isContract then "Contract" else "EOA",
        isContract,
        firstSeen := timestamp, lastSeen := timestamp,
        transactionCount := 1 }).1
  | some existing =>
    (upsertAddress db
      { address,
        balance := toString (p.getBalance address),
        type := existing.type,
        isContract := existing.isContract,
        firstSeen := existing.firstSeen, lastSeen := timestamp,
        transactionCount := existing.transactionCount + 1 }).1

/-- The receipt-log scan at the end of processTransaction: for each log
whose first topic is the Transfer signature and whose emitting address has
no Token row yet, run token discovery. -/
def scanLogs (p : Provider) (db : DB) (logs : List ChainLog) : DB :=
  logs.foldl
    (fun d log =>
      match log.topics with
      | [] => d
      | t :: _ =>
        if t = transferTopic then
          match getToken d log.address with
          | some _ => d
          | none => indexToken p d log.address
        else d)
    db

/-- BlockchainSync.processTransaction: skip if already persisted; fetch
body and receipt (skip if either is unavailable); derive the method
selector only when the input data is strictly longer than 10 characters;
persist the Transaction row; update sender, recipient, and — when the
receipt carries a created-contract address — the created address (twice:
once via updateAddress, once via a direct upsertAddress with count 0)
plus a bare unverified Contract row; finally scan the receipt logs for
token discovery.  All errors are caught inside, so the caller always
receives a store state. -/
def processTransaction (p : Provider) (db : DB) (txHash : String)
    (blockNumber : Nat) (blockTimestamp : Nat) : DB :=
  match getTransaction db txHash with
  | some _ => db
  | none =>
    match p.getTransaction txHash, p.getTransactionReceipt txHash with
    | some tx, some receipt =>
      let method : Option String :=
        if tx.data.length > 10 then some (tx.data.take 10) else none
      let contractCreated : Option String := receipt.contractAddress
      let db := (insertTransaction db
        { txHash := tx.hash,
          blockNumber,
          fromAddress := tx.fromAddr,
          toAddress := tx.toAddr,
          value := toString tx.value,
          gasPrice := match tx.gasPrice with | some g => toString g | none => "0",
          gasUsed := toString receipt.gasUsed,
          status := receipt.status.getD 0,
          nonce := tx.nonce,
          transactionIndex := tx.index,
          input := tx.data,
          timestamp := blockTimestamp,
          method, contractCreated,
          logs := receipt.logs }).1
      let db := updateAddress p db tx.fromAddr blockTimestamp
      let db := match tx.toAddr with
        | some t => updateAddress p db t blockTimestamp
        | none => db
      let db := match contractCreated with
        | some c =>
          let db := updateAddress p db c blockTimestamp
          let db := (upsertAddress db
            { address := c, balance := "0", type := "Contract",
              isContract := true,
              firstSeen := blockTimestamp, lastSeen := blockTimestamp,
              transactionCount := 0 }).1
          (insertContract db
            { address := c, creator := tx.fromAddr,
              creationTxHash := some txHash,
              sourceCode := none, compilerVersion := none,
              optimization := none, optimizationRuns := none,
              constructorArgs := none,
              verified := false, verifiedAt := none,
              contractName := none }).1
        | none => db
      scanLogs p db receipt.logs
    | _, _ => db

/-- BlockchainSync.processBlock: single-flight guard on the in-flight
height set, fetch the block (an adapter error is caught and logged; a
null block is logged and skipped), idempotent skip when a Block row
already exists, derive the base-fee and burnt-fee strings (the JavaScript
falsiness test on the BigInt base fee sends a zero base fee to the "0"
branch), insert the Block row, process each transaction hash in order,
and update the sync cursor to this height with connected = true.  The
second component collects the WebSocket messages broadcast during the
call; the source never invokes broadcastToClients from this method. -/
def processBlock (p : Provider) (queue : List Nat) (db : DB)
    (blockNumber : Nat) : DB × List String :=
  if blockNumber ∈ queue then (db, []) else
  match p.getBlock blockNumber with
  | .error _ => (db, [])
  | .ok none => (db, [])
  | .ok (some block) =>
    match getBlock db blockNumber with
    | some _ => (db, [])
    | none =>
      let baseFeePerGas : String :=
        match block.baseFeePerGas with
        | some v => toString v
        | none => "0"
      let burntFees : String :=
        match block.baseFeePerGas with
        | some v => if v = 0 then "0" else toString (block.gasUsed * v)
        | none => "0"
      let db := (insertBlock db
        { blockNumber := block.number,
          hash := block.hash.getD "",
          miner := block.miner.getD "",
          timestamp := block.timestamp,
          gasUsed := toString block.gasUsed,
          gasLimit := toString block.gasLimit,
          size := block.blockLength.getD 0,
          baseFeePerGas := some baseFeePerGas,
          burntFees := some burntFees,
          transactionCount := block.transactions.length }).1
      let db := block.transactions.foldl
        (fun d h => processTransaction p d h block.number block.timestamp) db
      let db := updateSyncState db blockNumber true
      (db, [])

/-- The in-memory connection state of the BlockchainSync instance:
isRunning flag, whether a wsProvider is live, and whether a reconnect
timer is pending. -/
structure Engine where
  isRunning : Bool
  wsConnected : Bool
  reconnectPending : Bool
deriving Repr, DecidableEq

/-- BlockchainSync.scheduleReconnect: idempotent guard — if a reconnect
timer is already pending, do nothing. -/
def scheduleReconnect (e : Engine) : Engine :=
  if e.reconnectPending then e else { e with reconnectPending := true }

/-- BlockchainSync.handleDisconnect: destroy the wsProvider, persist the
cursor via updateSyncState(0, false), and schedule one reconnect. -/
def handleDisconnect (e : Engine) (db : DB) : Engine × DB :=
  let e := { e with wsConnected := false }
  (scheduleReconnect e, updateSyncState db 0 false)

/-- BlockchainSync.stop: clear the running flag and any pending reconnect
timer, destroy the wsProvider, and persist the cursor via
updateSyncState(0, false). -/
def stop (_e : Engine) (db : DB) : Engine × DB :=
  ({ isRunning := false, wsConnected := false, reconnectPending := false },
   updateSyncState db 0 false)

/-- BlockchainSync.connectWebSocket: open the subscription, then persist
the cursor at the freshly fetched chain height with connected = true; a
failure in the body falls through to handleDisconnect. -/
def connectWebSocket (p : Provider) (e : Engine) (db : DB) : Engine × DB :=
  match p.getBlockNumber with
  | .ok n => ({ e with wsConnected := true }, updateSyncState db n true)
  | .error _ => handleDisconnect { e with wsConnected := true } db

/-- The iteration space of the startup catch-up loop in
BlockchainSync.start: when behind, min(gap, 10) consecutive heights from
currentBlock - blocksToSync + 1 up to currentBlock. -/
def catchUpHeights (lastSyncedBlock currentBlock : Nat) : List Nat :=
  if lastSyncedBlock < currentBlock then
    let blocksToSync := min (currentBlock - lastSyncedBlock) 10
    List.range' (currentBlock - blocksToSync + 1) blocksToSync
  else []

/-- BlockchainSync.start: no-op when already running; read the cursor
(missing cursor reads as 0), fetch the chain height, sequentially await
processBlock over the bounded catch-up window, then connect the live
feed.  A thrown error (here: the height fetch) is caught, best-effort
persists updateSyncState(0, false), and schedules a reconnect. -/
def start (p : Provider) (e : Engine) (db : DB) : Engine × DB :=
  if e.isRunning then (e, db) else
  let e := { e with isRunning := true }
  match p.getBlockNumber with
  | .error _ => (scheduleReconnect e, updateSyncState db 0 false)
  | .ok currentBlock =>
    let lastSyncedBlock := ((getSyncState db).map (·.lastSyncedBlock)).getD 0
    let db := (catchUpHeights lastSyncedBlock currentBlock).foldl
      (fun d i => (processBlock p [] d i).1) db
    connectWebSocket p e db

/-! ### Observation helpers and concrete fixtures -/

/-- Number of Block rows stored for a given height. -/
def countBlockRows (db : DB) (blockNumber : Nat) : Nat :=
  db.blocks.countP (fun r => r.blockNumber == blockNumber)

/-- Number of Transaction rows stored for a given hash. -/
def countTxRows (db : DB) (txHash : String) : Nat :=
  db.transactions.countP (fun r => r.txHash == txHash)

/-- The upstream node can serve both the body and the receipt of this
transaction hash, and the body's hash field is the requested hash. -/
def txFetchOk (p : Provider) (h : String) : Prop :=
  (p.getTransaction h).map ChainTx.hash = some h ∧
    (p.getTransactionReceipt h).isSome

instance (p : Provider) (h : String) : Decidable (txFetchOk p h) := by
  unfold txFetchOk
  infer_instance

/-- Fixture: a transaction body on the test chain. -/
def txW1 : ChainTx :=
  { hash := "0xt1", fromAddr := "0xaaa", toAddr := some "0xbbb", value := 5,
    gasPrice := some 2, nonce := 0, index := 0, data := "0xa9059cbb00" }

/-- Fixture: the receipt of txW1. -/
def rcW1 : ChainReceipt :=
  { gasUsed := 21000, status := some 1, contractAddress := none, logs := [] }

/-- Fixture: block 3 of the test chain, carrying txW1. -/
def bW1 : ChainBlock :=
  { number := 3, hash := some "0xh3", miner := some "0xm", timestamp := 1000,
    gasUsed := 21000, gasLimit := 30000000, baseFeePerGas := some 7,
    blockLength := some 1, transactions := ["0xt1"] }

/-- Fixture: a provider serving block 3 with txW1. -/
def pW1 : Provider :=
  { getBlockNumber := .ok 3,
    getBlock := fun n => if n = 3 then .ok (some bW1) else .ok none,
    getTransaction := fun h => if h = "0xt1" then some txW1 else none,
    getTransactionReceipt := fun h => if h = "0xt1" then some rcW1 else none,
    getBalance := fun _ => 100,
    getCode := fun _ => "0x",
    tokenViews := fun _ =>
      { name := none, symbol := none, decimals := none, totalSupply := none } }

/-- Fixture: a store whose cursor stands at height 5, connected. -/
def dbC3 : DB :=
  { DB.empty with syncState := some { lastSyncedBlock := 5, isConnected := true } }

/-- Fixture: a running engine with a live subscription. -/
def eC3 : Engine :=
  { isRunning := true, wsConnected := true, reconnectPending := false }

/-- Fixture: block 7 of a chain without a base fee market. -/
def bC6 : ChainBlock :=
  { number := 7, hash := some "0xh7", miner := some "0xm", timestamp := 70,
    gasUsed := 123, gasLimit := 1000, baseFeePerGas := none,
    blockLength := none, transactions := [] }

/-- Fixture: a provider serving the base-fee-less block 7. -/
def pC6 : Provider :=
  { getBlockNumber := .ok 7,
    getBlock := fun n => if n = 7 then .ok (some bC6) else .ok none,
    getTransaction := fun _ => none,
    getTransactionReceipt := fun _ => none,
    getBalance := fun _ => 0,
    getCode := fun _ => "0x",
    tokenViews := fun _ =>
      { name := none, symbol := none, decimals := none, totalSupply := none } }

/-- Fixture: a transaction whose input data is exactly 10 characters long
(the 0x prefix plus a full 4-byte selector, with no arguments). -/
def txC7 : ChainTx :=
  { hash := "0xt7", fromAddr := "0xa7", toAddr := some "0xb7", value := 1,
    gasPrice := some 1, nonce := 0, index := 0, data := "0xaabbccdd" }

/-- Fixture: the receipt of txC7. -/
def rcC7 : ChainReceipt :=
  { gasUsed := 21000, status := some 1, contractAddress := none, logs := [] }

/-- Fixture: a provider serving txC7. -/
def pC7 : Provider :=
  { getBlockNumber := .ok 1,
    getBlock := fun _ => .ok none,
    getTransaction := fun h => if h = "0xt7" then some txC7 else none,
    getTransactionReceipt := fun h => if h = "0xt7" then some rcC7 else none,
    getBalance := fun _ => 0,
    getCode := fun _ => "0x",
    tokenViews := fun _ =>
      { name := none, symbol := none, decimals := none, totalSupply := none } }

/-- Fixture: an empty block at height 100. -/
def bC8 : ChainBlock :=
  { number := 100, hash := some "0xh100", miner := some "0xm", timestamp := 5000,
    gasUsed := 0, gasLimit := 30000000, baseFeePerGas := some 5,
    blockLength := some 0, transactions := [] }

/-- Fixture: a provider serving the empty block 100. -/
def pC8 : Provider :=
  { getBlockNumber := .ok 100,
    getBlock := fun n => if n = 100 then .ok (some bC8) else .ok none,
    getTransaction := fun _ => none,
    getTransactionReceipt := fun _ => none,
    getBalance := fun _ => 0,
    getCode := fun _ => "0x",
    tokenViews := fun _ =>
      { name := none, symbol := none, decimals := none, totalSupply := none } }

/-- Fixture: an Address row with five recorded interactions. -/
def rowA5 : AddressRow :=
  { address := "0xa", balance := "10", type := "EOA", isContract := false,
    firstSeen := 1, lastSeen := 1, transactionCount := 5 }

/-- Fixture: a store holding only rowA5. -/
def dbW5 : DB := { DB.empty with addresses := [rowA5] }

/-- Fixture: an upsert payload for rowA5's address carrying a stale
application-computed count of 99. -/
def upsW5a : AddressRow :=
  { address := "0xa", balance := "11", type := "EOA", isContract := false,
    firstSeen := 1, lastSeen := 2, transactionCount := 99 }

/-- Fixture: a second upsert payload for rowA5's address with count 0. -/
def upsW5b : AddressRow :=
  { address := "0xa", balance := "12", type := "EOA", isContract := false,
    firstSeen := 1, lastSeen := 3, transactionCount := 0 }

/-- Fixture: a Block row stored at height 1. -/
def rowB9 : BlockRow :=
  { blockNumber := 1, hash := "0xb1", miner := "0xm", timestamp := 10,
    gasUsed := "5", gasLimit := "10", size := 0, baseFeePerGas := none,
    burntFees := none, transactionCount := 0 }

/-- Fixture: a Transaction row stored under hash 0xt9. -/
def rowT9 : TxRow :=
  { txHash := "0xt9", blockNumber := 1, fromAddress := "0xa", toAddress := none,
    value := "0", gasPrice := "0", gasUsed := "0", status := 1, nonce := 0,
    transactionIndex := 0, input := "0x", timestamp := 10, method := none,
    contractCreated := none, logs := [] }

/-- Fixture: a store already holding rowB9 and rowT9. -/
def dbW9 : DB := { DB.empty with blocks := [rowB9], transactions := [rowT9] }

/-- Fixture: a contract-creation transaction (no recipient). -/
def txW10 : ChainTx :=
  { hash := "0xc1", fromAddr := "0xaaa", toAddr := none, value := 0,
    gasPrice := none, nonce := 0, index := 0, data := "0x6001600155" }

/-- Fixture: the receipt of txW10, carrying the created address 0xcc. -/
def rcW10 : ChainReceipt :=
  { gasUsed := 50000, status := some 1, contractAddress := some "0xcc", logs := [] }

/-- Fixture: a provider serving txW10 whose created address has code. -/
def pW10 : Provider :=
  { getBlockNumber := .ok 1,
    getBlock := fun _ => .ok none,
    getTransaction := fun h => if h = "0xc1" then some txW10 else none,
    getTransactionReceipt := fun h => if h = "0xc1" then some rcW10 else none,
    getBalance := fun _ => 0,
    getCode := fun a => if a = "0xcc" then "0x6001" else "0x",
    tokenViews := fun _ =>
      { name := none, symbol := none, decimals := none, totalSupply := none } }

/-! ### Frame lemmas: which tables each operation leaves untouched -/

theorem updateSyncState_blocks (db : DB) (n : Nat) (c : Bool) :
    (updateSyncState db n c).blocks = db.blocks := rfl

theorem updateSyncState_transactions (db : DB) (n : Nat) (c : Bool) :
    (updateSyncState db n c).transactions = db.transactions := rfl

theorem insertBlock_transactions (db : DB) (row : BlockRow) :
    ((insertBlock db row).1).transactions = db.transactions := by
  unfold insertBlock; split <;> rfl

theorem insertTransaction_blocks (db : DB) (row : TxRow) :
    ((insertTransaction db row).1).blocks = db.blocks := by
  unfold insertTransaction; split <;> rfl

theorem insertTransaction_addresses (db : DB) (row : TxRow) :
    ((insertTransaction db row).1).addresses = db.addresses := by
  unfold insertTransaction; split <;> rfl

theorem insertContract_blocks (db : DB) (row : ContractRow) :
    ((insertContract db row).1).blocks = db.blocks := by
  unfold insertContract; split <;> rfl

theorem insertContract_transactions (db : DB) (row : ContractRow) :
    ((insertContract db row).1).transactions = db.transactions := by
  unfold insertContract; split <;> rfl

theorem insertContract_addresses (db : DB) (row : ContractRow) :
    ((insertContract db row).1).addresses = db.addresses := by
  unfold insertContract; split <;> rfl

theorem upsertAddress_blocks (db : DB) (row : AddressRow) :
    ((upsertAddress db row).1).blocks = db.blocks := by
  unfold upsertAddress; split <;> rfl

theorem upsertAddress_transactions (db : DB) (row : AddressRow) :
    ((upsertAddress db row).1).transactions = db.transactions := by
  unfold upsertAddress; split <;> rfl

theorem upsertToken_blocks (db : DB) (row : TokenRow) :
    ((upsertToken db row).1).blocks = db.blocks := by
  unfold upsertToken; split <;> rfl

theorem upsertToken_transactions (db : DB) (row : TokenRow) :
    ((upsertToken db row).1).transactions = db.transactions := by
  unfold upsertToken; split <;> rfl

theorem upsertToken_addresses (db : DB) (row : TokenRow) :
    ((upsertToken db row).1).addresses = db.addresses := by
  unfold upsertToken; split <;> rfl

theorem updateAddress_blocks (p : Provider) (db : DB) (a : String) (ts : Nat) :
    (updateAddress p db a ts).blocks = db.blocks := by
  unfold updateAddress; split <;> simp [upsertAddress_blocks]

theorem updateAddress_transactions (p : Provider) (db : DB) (a : String) (ts : Nat) :
    (updateAddress p db a ts).transactions = db.transactions := by
  unfold updateAddress; split <;> simp [upsertAddress_transactions]

theorem indexToken_blocks (p : Provider) (db : DB) (a : String) :
    (indexToken p db a).blocks = db.blocks := by
  simp [indexToken, upsertToken_blocks]

theorem indexToken_transactions (p : Provider) (db : DB) (a : String) :
    (indexToken p db a).transactions = db.transactions := by
  simp [indexToken, upsertToken_transactions]

theorem indexToken_addresses (p : Provider) (db : DB) (a : String) :
    (indexToken p db a).addresses = db.addresses := by
  simp [indexToken, upsertToken_addresses]

theorem scanLogs_blocks (p : Provider) (logs : List ChainLog) (db : DB) :
    (scanLogs p db logs).blocks = db.blocks := by
  induction logs generalizing db with
  | nil => rfl
  | cons l ls ih =>
    simp only [scanLogs, List.foldl_cons] at ih ⊢
    rw [ih]
    cases l.topics with
    | nil => rfl
    | cons t ts =>
      by_cases ht : t = transferTopic
      · cases hg : getToken db l.address <;> simp [ht, hg, indexToken_blocks]
      · simp [ht]

theorem scanLogs_transactions (p : Provider) (logs : List ChainLog) (db : DB) :
    (scanLogs p db logs).transactions = db.transactions := by
  induction logs generalizing db with
  | nil => rfl
  | cons l ls ih =>
    simp only [scanLogs, List.foldl_cons] at ih ⊢
    rw [ih]
    cases l.topics with
    | nil => rfl
    | cons t ts =>
      by_cases ht : t = transferTopic
      · cases hg : getToken db l.address <;> simp [ht, hg, indexToken_transactions]
      · simp [ht]

theorem scanLogs_addresses (p : Provider) (logs : List ChainLog) (db : DB) :
    (scanLogs p db logs).addresses = db.addresses := by
  induction logs generalizing db with
  | nil => rfl
  | cons l ls ih =>
    simp only [scanLogs, List.foldl_cons] at ih ⊢
    rw [ih]
    cases l.topics with
    | nil => rfl
    | cons t ts =>
      by_cases ht : t = transferTopic
      · cases hg : getToken db l.address <;> simp [ht, hg, indexToken_addresses]
      · simp [ht]

theorem processTransaction_blocks (p : Provider) (db : DB) (h : String)
    (n ts : Nat) : (processTransaction p db h n ts).blocks = db.blocks := by
  unfold processTransaction
  split
  · rfl
  · split
    · rw [scanLogs_blocks]
      split <;> split <;>
        simp [insertTransaction_blocks, updateAddress_blocks,
          upsertAddress_blocks, insertContract_blocks]
    · rfl

theorem foldTx_blocks (p : Provider) (n ts : Nat) (L : List String) (db : DB) :
    (L.foldl (fun d h => processTransaction p d h n ts) db).blocks = db.blocks := by
  induction L generalizing db with
  | nil => rfl
  | cons a T ih => rw [List.foldl_cons, ih, processTransaction_blocks]

/-! ### Bridging lemmas between lookups and row counts -/

theorem getTransaction_eq_none_iff (db : DB) (h : String) :
    getTransaction db h = none ↔ countTxRows db h = 0 := by
  simp [getTransaction, countTxRows, List.find?_eq_none, List.countP_eq_zero]

theorem getBlock_eq_none_iff (db : DB) (n : Nat) :
    getBlock db n = none ↔ countBlockRows db n = 0 := by
  simp [getBlock, countBlockRows, List.find?_eq_none, List.countP_eq_zero]

theorem insertTransaction_transactions_fresh (db : DB) (row : TxRow)
    (hany : db.transactions.any (fun r => r.txHash == row.txHash) = false) :
    ((insertTransaction db row).1).transactions = db.transactions ++ [row] := by
  simp [insertTransaction, hany]

theorem processTransaction_transactions_fresh (p : Provider) (db : DB) (h : String)
    (n ts : Nat) (tx : ChainTx) (rc : ChainReceipt)
    (hnone : getTransaction db h = none)
    (ht : p.getTransaction h = some tx)
    (hr : p.getTransactionReceipt h = some rc)
    (hhash : tx.hash = h) :
    ∃ row : TxRow,
      (processTransaction p db h n ts).transactions = db.transactions ++ [row] ∧
      row.txHash = tx.hash ∧
      row.method = (if tx.data.length > 10 then some (tx.data.take 10) else none) := by
  have hfresh : ∀ r ∈ db.transactions, ¬ ((r.txHash == h) = true) := by
    simpa [getTransaction, List.find?_eq_none] using hnone
  have hany : db.transactions.any (fun r => r.txHash == tx.hash) = false := by
    rw [hhash]
    refine Bool.eq_false_iff.mpr ?_
    rw [ne_eq, List.any_eq_true]
    rintro ⟨r, hm, hp⟩
    exact hfresh r hm hp
  simp only [processTransaction, hnone, ht, hr]
  simp only [scanLogs_transactions, updateAddress_transactions,
    upsertAddress_transactions, insertContract_transactions]
  rcases tx.toAddr with _ | t <;> rcases rc.contractAddress with _ | c <;>
    simp only [updateAddress_transactions, upsertAddress_transactions,
      insertContract_transactions] <;>
    exact ⟨_, insertTransaction_transactions_fresh db _ hany, rfl, rfl⟩

theorem processTransaction_countTxRows (p : Provider) (db : DB) (h : String)
    (n ts : Nat) (hok : txFetchOk p h) (x : String) :
    countTxRows (processTransaction p db h n ts) x =
      if x = h ∧ countTxRows db h = 0 then 1 else countTxRows db x := by
  obtain ⟨htx, hrc⟩ := hok
  cases ht : p.getTransaction h with
  | none => rw [ht] at htx; simp at htx
  | some tx =>
    rw [ht] at htx
    have hhash : tx.hash = h := by simpa using htx
    cases hr : p.getTransactionReceipt h with
    | none => rw [hr] at hrc; simp at hrc
    | some rc =>
      by_cases hz : countTxRows db h = 0
      · have hnone : getTransaction db h = none := (getTransaction_eq_none_iff db h).mpr hz
        obtain ⟨row, heq, hrh, -⟩ :=
          processTransaction_transactions_fresh p db h n ts tx rc hnone ht hr hhash
        simp only [countTxRows] at hz ⊢
        rw [heq]
        simp only [List.countP_append, List.countP_cons, List.countP_nil, hrh, hhash]
        by_cases hx : x = h
        · subst hx
          simp [hz]
        · have hne : h ≠ x := fun hcon => hx hcon.symm
          simp [hx, hne, hz]
      · have hsome : ∃ r, getTransaction db h = some r := by
          cases hgt : getTransaction db h with
          | none => exact absurd ((getTransaction_eq_none_iff db h).mp hgt) hz
          | some r => exact ⟨r, rfl⟩
        obtain ⟨r, hgt⟩ := hsome
        simp only [processTransaction, hgt]
        simp [hz]

theorem foldTx_countTxRows (p : Provider) (n ts : Nat) (L : List String) (db : DB)
    (hA : ∀ h ∈ L, txFetchOk p h) (x : String) :
    countTxRows (L.foldl (fun d h => processTransaction p d h n ts) db) x =
      if x ∈ L ∧ countTxRows db x = 0 then 1 else countTxRows db x := by
  induction L generalizing db with
  | nil => simp
  | cons a T ih =>
    have hAa : txFetchOk p a := hA a (List.mem_cons_self a T)
    have hAT : ∀ h ∈ T, txFetchOk p h := fun h hm => hA h (List.mem_cons_of_mem a hm)
    rw [List.foldl_cons, ih (processTransaction p db a n ts) hAT]
    rw [processTransaction_countTxRows p db a n ts hAa x]
    simp only [List.mem_cons]
    by_cases h1 : x = a
    · subst h1
      by_cases h2 : countTxRows db x = 0 <;> simp [h2]
    · by_cases h2 : countTxRows db x = 0 <;> by_cases h3 : x ∈ T <;>
        simp [h1, h2, h3]

/-! ### Lookup behaviour of the address upsert -/

theorem getAddress_upsertAddress_present (db : DB) (row : AddressRow) (s : AddressRow)
    (hf : getAddress db row.address = some s) :
    getAddress (upsertAddress db row).1 row.address =
      some { s with balance := row.balance, lastSeen := row.lastSeen,
                    transactionCount := s.transactionCount + 1 } := by
  have hs : s.address = row.address := by
    have := List.find?_some (by simpa [getAddress] using hf)
    simpa using this
  unfold getAddress at hf ⊢
  unfold upsertAddress
  rw [hf]
  simp only [List.find?_map]
  have hcomp :
      ((fun r : AddressRow => r.address == row.address) ∘
        (fun a : AddressRow =>
          if a.address == row.address then
            { s with balance := row.balance, lastSeen := row.lastSeen,
                     transactionCount := s.transactionCount + 1 }
          else a)) = fun r : AddressRow => r.address == row.address := by
    funext a
    by_cases h : a.address = row.address <;> simp [h, hs]
  rw [hcomp, hf]
  simp [hs]

theorem getAddress_upsertAddress_absent (db : DB) (row : AddressRow)
    (hf : getAddress db row.address = none) :
    getAddress (upsertAddress db row).1 row.address = some row := by
  unfold getAddress at hf ⊢
  unfold upsertAddress
  rw [hf]
  simp only [List.find?_append, hf]
  simp

theorem getAddress_upsertAddress_other (db : DB) (row : AddressRow) (x : String)
    (hx : x ≠ row.address) :
    getAddress (upsertAddress db row).1 x = getAddress db x := by
  unfold getAddress upsertAddress
  cases hf : db.addresses.find? (fun r => r.address == row.address) with
  | none =>
    have hne : ¬ row.address = x := fun hcon => hx hcon.symm
    simp [List.find?_append, hne]
  | some s =>
    have hs : s.address = row.address := by
      have := List.find?_some hf
      simpa using this
    simp only [List.find?_map]
    have hcomp :
        ((fun r : AddressRow => r.address == x) ∘
          (fun a : AddressRow =>
            if a.address == row.address then
              { s with balance := row.balance, lastSeen := row.lastSeen,
                       transactionCount := s.transactionCount + 1 }
            else a)) = fun r : AddressRow => r.address == x := by
      funext a
      by_cases h : a.address = row.address <;>
        simp [h, hs, fun hcon : row.address = x => hx hcon.symm]
    rw [hcomp]
    cases hg : db.addresses.find? (fun r => r.address == x) with
    | none => rfl
    | some r0 =>
      have hr0 : r0.address = x := by
        have := List.find?_some hg
        simpa using this
      have hne : ¬ r0.address = row.address := fun hcon => hx (hr0.symm.trans hcon)
      simp [hne]

theorem getAddress_updateAddress_other (p : Provider) (db : DB) (a : String)
    (ts : Nat) (x : String) (hx : x ≠ a) :
    getAddress (updateAddress p db a ts) x = getAddress db x := by
  unfold updateAddress
  split <;> exact getAddress_upsertAddress_other db _ x hx

theorem getAddress_upsertAddress_absent' (db : DB) (row : AddressRow) (x : String)
    (hx : row.address = x) (hf : getAddress db x = none) :
    getAddress (upsertAddress db row).1 x = some row := by
  subst hx
  exact getAddress_upsertAddress_absent db row hf

theorem getAddress_upsertAddress_present' (db : DB) (row : AddressRow) (x : String)
    (s : AddressRow) (hx : row.address = x) (hf : getAddress db x = some s) :
    (getAddress (upsertAddress db row).1 x).map AddressRow.transactionCount =
      some (s.transactionCount + 1) := by
  subst hx
  rw [getAddress_upsertAddress_present db row s hf]
  rfl

theorem getAddress_insertTransaction (db : DB) (row : TxRow) (x : String) :
    getAddress (insertTransaction db row).1 x = getAddress db x := by
  simp [getAddress, insertTransaction_addresses]

theorem getAddress_insertContract (db : DB) (row : ContractRow) (x : String) :
    getAddress (insertContract db row).1 x = getAddress db x := by
  simp [getAddress, insertContract_addresses]

theorem getAddress_scanLogs (p : Provider) (db : DB) (logs : List ChainLog) (x : String) :
    getAddress (scanLogs p db logs) x = getAddress db x := by
  simp [getAddress, scanLogs_addresses]

theorem insertBlock_blocks_fresh (db : DB) (row : BlockRow)
    (hany : db.blocks.any
      (fun r => r.blockNumber == row.blockNumber || r.hash == row.hash) = false) :
    ((insertBlock db row).1).blocks = db.blocks ++ [row] := by
  simp [insertBlock, hany]

theorem countTxRows_insertBlock (db : DB) (row : BlockRow) (x : String) :
    countTxRows ((insertBlock db row).1) x = countTxRows db x := by
  simp [countTxRows, insertBlock_transactions]

theorem countTxRows_updateSyncState (db : DB) (n : Nat) (c : Bool) (x : String) :
    countTxRows (updateSyncState db n c) x = countTxRows db x := rfl

theorem getLast?_range' (s n : Nat) (h : n ≠ 0) :
    (List.range' s n).getLast? = some (s + n - 1) := by
  obtain ⟨m, rfl⟩ := Nat.exists_eq_succ_of_ne_zero h
  rw [List.range'_concat, List.getLast?_concat]
  congr 1
  omega

/-! ### The claims -/

/-- C3 counterexample: with the cursor standing at height 5, a disconnect
persists connected = false but resets the last-synced height to 0 instead
of leaving it at 5, refuting the claim that the height is unchanged; the
explicit stop path does the same. -/
theorem C3_counterexample :
    ((handleDisconnect eC3 dbC3).2.syncState.map SyncStateRow.lastSyncedBlock ≠
        dbC3.syncState.map SyncStateRow.lastSyncedBlock) ∧
    (handleDisconnect eC3 dbC3).2.syncState =
      some { lastSyncedBlock := 0, isConnected := false } ∧
    (stop eC3 dbC3).2.syncState =
      some { lastSyncedBlock := 0, isConnected := false } := by
  decide

/-- C3 (amended): on every disconnect transition and on explicit shutdown
the engine persists the cursor with connected = false, but it writes
updateSyncState(0, false), resetting the last-synced height to 0 rather
than preserving it; the subscription resource is torn down and stop clears
the running flag and any pending reconnect timer. -/
theorem C3_disconnect_resets_cursor (e : Engine) (db : DB) :
    (handleDisconnect e db).2.syncState =
      some { lastSyncedBlock := 0, isConnected := false } ∧
    (stop e db).2.syncState =
      some { lastSyncedBlock := 0, isConnected := false } ∧
    (handleDisconnect e db).1.wsConnected = false ∧
    (stop e db).1 = { isRunning := false, wsConnected := false, reconnectPending := false } := by
  refine ⟨rfl, rfl, ?_, rfl⟩
  unfold handleDisconnect scheduleReconnect
  by_cases hp : e.reconnectPending <;> simp [hp]

/-- C4: the startup catch-up window holds at most 10 heights, they are
strictly ascending (oldest first), the window ends exactly at the current
chain height whenever the cursor is behind, every ingested height is at
most the current height, and start ingests them by sequentially folding
processBlock over this window. -/
theorem C4_bounded_catchup (lastSynced current : Nat) :
    (catchUpHeights lastSynced current).length ≤ 10 ∧
    List.Pairwise (· < ·) (catchUpHeights lastSynced current) ∧
    (catchUpHeights lastSynced current).getLast? =
      (if lastSynced < current then some current else none) ∧
    (∀ x ∈ catchUpHeights lastSynced current, x ≤ current) := by
  unfold catchUpHeights
  by_cases h : lastSynced < current
  · simp only [if_pos h]
    refine ⟨?_, ?_, ?_, ?_⟩
    · simp only [List.length_range']
      exact Nat.min_le_right (current - lastSynced) 10
    · exact List.pairwise_lt_range' _ _
    · have hk : min (current - lastSynced) 10 ≠ 0 := by omega
      rw [getLast?_range' _ _ hk]
      congr 1
      omega
    · intro x hx
      rw [List.mem_range'_1] at hx
      omega
  · simp [h]

/-- C9: inserting a Block whose block number already exists, or a
Transaction whose hash already exists, leaves the store unchanged and
resolves to none (the destructured result of the empty returning() list,
i.e. undefined at the declared non-optional result type). -/
theorem C9_duplicate_insert_returns_undefined (db : DB) (rb : BlockRow) (rt : TxRow)
    (hb : ∃ r ∈ db.blocks, r.blockNumber = rb.blockNumber)
    (ht : ∃ r ∈ db.transactions, r.txHash = rt.txHash) :
    insertBlock db rb = (db, none) ∧ insertTransaction db rt = (db, none) := by
  obtain ⟨r, hm, he⟩ := hb
  obtain ⟨r', hm', he'⟩ := ht
  constructor
  · have hany : db.blocks.any
        (fun r => r.blockNumber == rb.blockNumber || r.hash == rb.hash) = true :=
      List.any_eq_true.mpr ⟨r, hm, by simp [he]⟩
    simp [insertBlock, hany]
  · have hany : db.transactions.any (fun r => r.txHash == rt.txHash) = true :=
      List.any_eq_true.mpr ⟨r', hm', by simp [he']⟩
    simp [insertTransaction, hany]

/-- C9 witness: a store holding block 1 and transaction 0xt9 rejects a
re-insert of the same identities as a silent no-op returning none. -/
theorem C9_witness :
    (∃ r ∈ dbW9.blocks, r.blockNumber = ({ rowB9 with hash := "0xb1x" } : BlockRow).blockNumber) ∧
    (∃ r ∈ dbW9.transactions, r.txHash = ({ rowT9 with blockNumber := 2 } : TxRow).txHash) ∧
    (insertBlock dbW9 { rowB9 with hash := "0xb1x" } = (dbW9, none) ∧
      insertTransaction dbW9 { rowT9 with blockNumber := 2 } = (dbW9, none)) :=
  ⟨by decide, by decide,
    C9_duplicate_insert_returns_undefined dbW9 { rowB9 with hash := "0xb1x" }
      { rowT9 with blockNumber := 2 } (by decide) (by decide)⟩

/-- C5: the address upsert increments the stored interaction counter in
the store itself: with address A present holding count k, one upsertAddress
call yields count k+1 regardless of the transactionCount carried by the
caller's payload, and folding N such upserts yields exactly k+N (no lost
updates from application-computed counts). -/
theorem C5_atomic_address_counter (db : DB) (A : String) (r : AddressRow)
    (rows : List AddressRow)
    (hA : getAddress db A = some r)
    (hrows : ∀ x ∈ rows, x.address = A) :
    ((getAddress (rows.foldl (fun d x => (upsertAddress d x).1) db) A).map
        AddressRow.transactionCount = some (r.transactionCount + rows.length)) ∧
    (∀ (d : DB) (s row : AddressRow), getAddress d row.address = some s →
      (getAddress (upsertAddress d row).1 row.address).map AddressRow.transactionCount =
        some (s.transactionCount + 1)) := by
  constructor
  · induction rows generalizing db r with
    | nil => simp [hA]
    | cons a T ih =>
      have ha : a.address = A := hrows a (List.mem_cons_self a T)
      have hrows' : ∀ x ∈ T, x.address = A := fun x hx => hrows x (List.mem_cons_of_mem a hx)
      rw [List.foldl_cons]
      have hup := getAddress_upsertAddress_present db a r (by rw [ha]; exact hA)
      rw [ha] at hup
      have hrec := ih (upsertAddress db a).1
        { r with balance := a.balance, lastSeen := a.lastSeen,
                 transactionCount := r.transactionCount + 1 } hup hrows'
      rw [hrec]
      simp only [List.length_cons, Option.some.injEq]
      omega
  · intro d s row hds
    exact getAddress_upsertAddress_present' d row row.address s rfl hds

/-- C5 witness: address 0xa holds count 5; two further upserts whose
payloads carry counts 99 and 0 leave the stored count at exactly 7. -/
theorem C5_witness :
    getAddress dbW5 "0xa" = some rowA5 ∧
    (∀ x ∈ [upsW5a, upsW5b], x.address = "0xa") ∧
    ((getAddress ([upsW5a, upsW5b].foldl (fun d x => (upsertAddress d x).1) dbW5) "0xa").map
        AddressRow.transactionCount =
      some (rowA5.transactionCount + [upsW5a, upsW5b].length)) :=
  ⟨by decide, by decide,
    (C5_atomic_address_counter dbW5 "0xa" rowA5 [upsW5a, upsW5b] (by decide) (by decide)).1⟩

/-- C2: when the in-flight guard passes, the fetch returns the block and
no Block row exists yet, processBlock ends by persisting the cursor at
exactly this height with connected = true; and whenever the block fetch
fails (adapter error or block not found), processBlock returns the store
unchanged, so the cursor is untouched. -/
theorem C2_cursor_monotonic_atomic (p : Provider) (db : DB) (h : Nat)
    (queue : List Nat) (b : ChainBlock)
    (hq : h ∉ queue)
    (hfetch : p.getBlock h = .ok (some b))
    (hfresh : getBlock db h = none) :
    ((processBlock p queue db h).1.syncState =
        some { lastSyncedBlock := h, isConnected := true }) ∧
    (∀ (p' : Provider) (q' : List Nat) (d : DB) (h' : Nat),
        (p'.getBlock h' = .error () ∨ p'.getBlock h' = .ok none) →
        processBlock p' q' d h' = (d, [])) := by
  constructor
  · simp [processBlock, hfetch, hfresh, hq, updateSyncState]
  · intro p' q' d h' hcase
    by_cases hm : h' ∈ q'
    · simp [processBlock, hm]
    · rcases hcase with hc | hc <;> simp [processBlock, hm, hc]

/-- C2 witness: processing fresh block 3 of the fixture chain commits the
cursor to exactly height 3, connected. -/
theorem C2_witness :
    (3 ∉ ([] : List Nat)) ∧ pW1.getBlock 3 = .ok (some bW1) ∧
    getBlock DB.empty 3 = none ∧
    (processBlock pW1 [] DB.empty 3).1.syncState =
      some { lastSyncedBlock := 3, isConnected := true } :=
  ⟨by decide, rfl, rfl,
    (C2_cursor_monotonic_atomic pW1 DB.empty 3 [] bW1 (by decide) rfl rfl).1⟩

/-- C6 counterexample: processing block 7, which carries no base fee, the
persisted Block row stores burntFees and baseFeePerGas as the string "0",
not as null, refuting the claim that both are null in that case. -/
theorem C6_counterexample :
    (getBlock ((processBlock pC6 [] DB.empty 7).1) 7).map
        (fun r => (r.baseFeePerGas, r.burntFees)) = some (some "0", some "0") ∧
    ¬ ((getBlock ((processBlock pC6 [] DB.empty 7).1) 7).map BlockRow.burntFees =
        some none) := by
  decide

/-- C6 (amended): the persisted burntFees equals the decimal string of
baseFeePerGas * gasUsed whenever the block carries a base fee, and is the
string "0" (not null) when it does not; the persisted base-fee field is
likewise the string "0" rather than null in that case. -/
theorem C6_burnt_fees (p : Provider) (db : DB) (h : Nat) (queue : List Nat)
    (b : ChainBlock)
    (hq : h ∉ queue)
    (hfetch : p.getBlock h = .ok (some b))
    (hnum : b.number = h)
    (hfresh : getBlock db h = none)
    (hnocoll : ∀ r ∈ db.blocks, r.hash ≠ b.hash.getD "") :
    (getBlock ((processBlock p queue db h).1) h).map
        (fun r => (r.baseFeePerGas, r.burntFees)) =
      some (match b.baseFeePerGas with
        | some v => (some (toString v), some (toString (b.gasUsed * v)))
        | none => (some "0", some "0")) := by
  have hfreshP : ∀ r ∈ db.blocks, ¬ ((r.blockNumber == h) = true) := by
    simpa [getBlock, List.find?_eq_none] using hfresh
  have hany : db.blocks.any
      (fun r => r.blockNumber == b.number || r.hash == b.hash.getD "") = false := by
    refine Bool.eq_false_iff.mpr ?_
    rw [ne_eq, List.any_eq_true]
    rintro ⟨r, hm, hp⟩
    rcases Bool.or_eq_true_iff.mp hp with hp | hp
    · exact hfreshP r hm (by simpa [hnum] using hp)
    · exact hnocoll r hm (by simpa using hp)
  simp only [processBlock, hfetch, hfresh]
  rw [if_neg hq]
  simp only [getBlock, updateSyncState_blocks, foldTx_blocks, insertBlock]
  rw [if_neg (by simpa using Bool.eq_false_iff.mp hany)]
  rw [List.find?_append]
  rw [show db.blocks.find? (fun r => r.blockNumber == h) = none from
    List.find?_eq_none.mpr hfreshP]
  cases hbf : b.baseFeePerGas with
  | none => simp [hnum]
  | some v =>
    by_cases hv : v = 0
    · subst hv
      simp only [hnum]
      simp
      decide
    · simp [hnum, hv]

/-- C6 witness: block 3 carries base fee 7 and gas used 21000; the stored
pair is the strings ("7", "147000"). -/
theorem C6_witness :
    (getBlock ((processBlock pW1 [] DB.empty 3).1) 3).map
        (fun r => (r.baseFeePerGas, r.burntFees)) = some (some "7", some "147000") := by
  have := C6_burnt_fees pW1 DB.empty 3 [] bW1 (by decide) rfl rfl rfl (by simp [DB.empty])
  rw [this]
  rfl

/-- C7 counterexample: an input of exactly 10 characters (0x plus a full
4-byte selector) is persisted with method null, refuting the claim that
inputs of length at least 10 yield the selector. -/
theorem C7_counterexample :
    txC7.data.length = 10 ∧
    (getTransaction (processTransaction pC7 DB.empty "0xt7" 1 100) "0xt7").map
        TxRow.method = some none := by
  decide

/-- C7 (amended): the persisted method field is the first 10 characters of
the input data exactly when the input is strictly longer than 10
characters, and null otherwise — an input of exactly 10 characters yields
null. -/
theorem C7_method_selector (p : Provider) (db : DB) (h : String) (n ts : Nat)
    (tx : ChainTx) (rc : ChainReceipt)
    (hnone : getTransaction db h = none)
    (ht : p.getTransaction h = some tx)
    (hr : p.getTransactionReceipt h = some rc)
    (hhash : tx.hash = h) :
    (getTransaction (processTransaction p db h n ts) h).map TxRow.method =
      some (if tx.data.length > 10 then some (tx.data.take 10) else none) := by
  obtain ⟨row, heq, hrh, hm⟩ :=
    processTransaction_transactions_fresh p db h n ts tx rc hnone ht hr hhash
  simp only [getTransaction] at hnone ⊢
  rw [heq, List.find?_append, hnone,
    List.find?_cons_of_pos _ (by simp [hrh, hhash])]
  simp [hm]

/-- C7 witness: txW1 has a 12-character input, so its stored method is the
first 10 characters 0xa9059cbb. -/
theorem C7_witness :
    (getTransaction (processTransaction pW1 DB.empty "0xt1" 3 1000) "0xt1").map
        TxRow.method = some (some "0xa9059cbb") := by
  have := C7_method_selector pW1 DB.empty "0xt1" 3 1000 txW1 rcW1 rfl rfl rfl rfl
  rw [this]
  rfl

/-- C8: processing block 100 persists the Block row and commits the cursor
to height 100, yet the list of WebSocket messages broadcast during the
call is empty, and delivering that empty list to an attached open client
leaves its inbox unchanged — no "new block" notification is emitted. -/
theorem C8_no_new_block_notification :
    (processBlock pC8 [] DB.empty 100).2 = [] ∧
    ((processBlock pC8 [] DB.empty 100).1).syncState =
      some { lastSyncedBlock := 100, isConnected := true } ∧
    countBlockRows ((processBlock pC8 [] DB.empty 100).1) 100 = 1 ∧
    broadcastAll [{ isOpen := true, inbox := [] }] (processBlock pC8 [] DB.empty 100).2 =
      [{ isOpen := true, inbox := [] }] := by
  decide

theorem contractCreation_pipeline_count (p : Provider) (d : DB) (c : String)
    (ts : Nat) (cr : ContractRow) (logs : List ChainLog)
    (hfresh : getAddress d c = none) :
    (getAddress (scanLogs p
        ((insertContract
          ((upsertAddress (updateAddress p d c ts)
            { address := c, balance := "0", type := "Contract", isContract := true,
              firstSeen := ts, lastSeen := ts, transactionCount := 0 }).1) cr).1) logs) c).map
      AddressRow.transactionCount = some 2 := by
  rw [getAddress_scanLogs, getAddress_insertContract]
  unfold updateAddress
  rw [hfresh]
  rw [getAddress_upsertAddress_present' _ _ c _ rfl
    (getAddress_upsertAddress_absent' d _ c rfl hfresh)]

/-- C10: when a transaction's receipt carries a created-contract address
not previously stored, processTransaction upserts that address twice
(once through updateAddress, inserting it with count 1, once directly
with the conflict action incrementing the stored count), so the created
contract's Address row holds transactionCount 2 immediately afterwards. -/
theorem C10_created_contract_count (p : Provider) (db : DB) (h : String)
    (n ts : Nat) (tx : ChainTx) (rc : ChainReceipt) (c : String)
    (hnone : getTransaction db h = none)
    (ht : p.getTransaction h = some tx)
    (hr : p.getTransactionReceipt h = some rc)
    (hcc : rc.contractAddress = some c)
    (hfresh : getAddress db c = none)
    (hfrom : tx.fromAddr ≠ c)
    (hto : ∀ t, tx.toAddr = some t → t ≠ c) :
    (getAddress (processTransaction p db h n ts) c).map
      AddressRow.transactionCount = some 2 := by
  simp only [processTransaction, hnone, ht, hr, hcc]
  cases hta : tx.toAddr with
  | none =>
    exact contractCreation_pipeline_count p _ c ts _ _
      (by rw [getAddress_updateAddress_other _ _ _ _ _ (Ne.symm hfrom),
            getAddress_insertTransaction]
          exact hfresh)
  | some t =>
    have htc : t ≠ c := hto t hta
    exact contractCreation_pipeline_count p _ c ts _ _
      (by rw [getAddress_updateAddress_other _ _ _ _ _ (Ne.symm htc),
            getAddress_updateAddress_other _ _ _ _ _ (Ne.symm hfrom),
            getAddress_insertTransaction]
          exact hfresh)

/-- C10 witness: processing the contract-creation transaction 0xc1 leaves
the created address 0xcc with stored transactionCount 2. -/
theorem C10_witness :
    (getAddress (processTransaction pW10 DB.empty "0xc1" 1 500) "0xcc").map
      AddressRow.transactionCount = some 2 :=
  C10_created_contract_count pW10 DB.empty "0xc1" 1 500 txW10 rcW10 "0xcc"
    rfl rfl rfl rfl rfl (by decide)
    (fun t htc => by simp [txW10] at htc)

theorem processBlock_blocks_fresh (p : Provider) (db : DB) (h : Nat) (b : ChainBlock)
    (hfetch : p.getBlock h = .ok (some b))
    (hgb : getBlock db h = none)
    (hany : db.blocks.any
      (fun r => r.blockNumber == b.number || r.hash == b.hash.getD "") = false) :
    ∃ rowB : BlockRow,
      ((processBlock p [] db h).1).blocks = db.blocks ++ [rowB] ∧
      rowB.blockNumber = b.number := by
  simp only [processBlock, hfetch, hgb]
  rw [if_neg (List.not_mem_nil h)]
  simp only [updateSyncState_blocks, foldTx_blocks, insertBlock]
  rw [if_neg (by simpa using Bool.eq_false_iff.mp hany)]
  exact ⟨_, rfl, rfl⟩

theorem processBlock_countTxRows_fresh (p : Provider) (db : DB) (h : Nat)
    (b : ChainBlock)
    (hfetch : p.getBlock h = .ok (some b))
    (hgb : getBlock db h = none)
    (hok : ∀ x ∈ b.transactions, txFetchOk p x) (x : String) :
    countTxRows ((processBlock p [] db h).1) x =
      if x ∈ b.transactions ∧ countTxRows db x = 0 then 1 else countTxRows db x := by
  simp only [processBlock, hfetch, hgb]
  rw [if_neg (List.not_mem_nil h)]
  simp only [countTxRows_updateSyncState]
  rw [foldTx_countTxRows p b.number b.timestamp b.transactions _ hok x]
  rw [countTxRows_insertBlock]

/-- C1: processing a fresh block twice sequentially leaves exactly one
Block row for its height and exactly one Transaction row per transaction
hash of the block, and a second call racing an in-flight one (its height
already in the single-flight set) returns immediately without touching
the store and without error. -/
theorem C1_idempotent_ingestion (p : Provider) (db : DB) (h : Nat) (b : ChainBlock)
    (hfetch : p.getBlock h = .ok (some b))
    (hnum : b.number = h)
    (hfreshB : ∀ r ∈ db.blocks, r.blockNumber ≠ h ∧ r.hash ≠ b.hash.getD "")
    (hfreshT : ∀ x ∈ b.transactions, countTxRows db x = 0)
    (hok : ∀ x ∈ b.transactions, txFetchOk p x) :
    countBlockRows ((processBlock p [] ((processBlock p [] db h).1) h).1) h = 1 ∧
    (∀ x ∈ b.transactions,
      countTxRows ((processBlock p [] ((processBlock p [] db h).1) h).1) x = 1) ∧
    (∀ (queue : List Nat) (d : DB), h ∈ queue → processBlock p queue d h = (d, [])) := by
  have hgb : getBlock db h = none := by
    rw [getBlock, List.find?_eq_none]
    intro r hr
    simp [(hfreshB r hr).1]
  have hany : db.blocks.any
      (fun r => r.blockNumber == b.number || r.hash == b.hash.getD "") = false := by
    refine Bool.eq_false_iff.mpr ?_
    rw [ne_eq, List.any_eq_true]
    rintro ⟨r, hm, hp⟩
    rcases Bool.or_eq_true_iff.mp hp with hp | hp
    · exact (hfreshB r hm).1 (by simpa [hnum] using hp)
    · exact (hfreshB r hm).2 (by simpa using hp)
  obtain ⟨rowB, hblocks, hrowB⟩ := processBlock_blocks_fresh p db h b hfetch hgb hany
  have hcnt : ∀ x, countTxRows ((processBlock p [] db h).1) x =
      if x ∈ b.transactions ∧ countTxRows db x = 0 then 1 else countTxRows db x :=
    fun x => processBlock_countTxRows_fresh p db h b hfetch hgb hok x
  generalize hD1 : (processBlock p [] db h).1 = D1 at hblocks hcnt ⊢
  have hskip : getBlock D1 h = some rowB := by
    rw [getBlock, hblocks, List.find?_append]
    rw [show db.blocks.find? (fun r => r.blockNumber == h) = none from by
      rw [List.find?_eq_none]; intro r hr; simp [(hfreshB r hr).1]]
    simp [hrowB, hnum]
  have hsecond : (processBlock p [] D1 h).1 = D1 := by
    simp [processBlock, hfetch, hskip]
  rw [hsecond]
  refine ⟨?_, ?_, ?_⟩
  · simp only [countBlockRows]
    rw [hblocks, List.countP_append]
    rw [show db.blocks.countP (fun r => r.blockNumber == h) = 0 from by
      rw [List.countP_eq_zero]; intro r hr; simp [(hfreshB r hr).1]]
    simp [hrowB, hnum]
  · intro x hx
    rw [hcnt x]
    simp [hx, hfreshT x hx]
  · intro queue d hmem
    simp [processBlock, hmem]

/-- C1 witness: ingesting fixture block 3 (one transaction) twice yields
exactly one Block row at height 3 and one Transaction row for its hash,
and a concurrent duplicate call is a no-op. -/
theorem C1_witness :
    countBlockRows ((processBlock pW1 [] ((processBlock pW1 [] DB.empty 3).1) 3).1) 3 = 1 ∧
    (∀ x ∈ bW1.transactions,
      countTxRows ((processBlock pW1 [] ((processBlock pW1 [] DB.empty 3).1) 3).1) x = 1) ∧
    (∀ (queue : List Nat) (d : DB), 3 ∈ queue → processBlock pW1 queue d 3 = (d, [])) :=
  C1_idempotent_ingestion pW1 DB.empty 3 bW1 rfl rfl (by decide) (by decide) (by decide)

end BlockchainSync
